import Mathlib

/-!
Verification development for the search-and-synthesis orchestration layer
(`backend/src/util/parallel_search.py` and
`backend/src/util/agentic_search_engine.py`).

The Python code is shallowly embedded as executable Lean definitions:

* Floating-point arithmetic on statistics and timestamps is modelled with
  exact rationals (`ℚ`); the thresholds `0.3` and `60.0` become `3/10`
  and `60`.
* An adapter (`SearchTool`) is identified by a natural-number id
  (Python's `id(tool)`); its behaviour during one call is an oracle value
  `CallBehavior` saying whether `await tool.search(...)` returned a result
  list, raised an exception, or timed out, and how long it took.  A Python
  exception escaping `adapter.search` and an `asyncio.TimeoutError` are
  distinct constructors because the source distinguishes them (only in
  logging); both are handled identically.
* The mutable `SearchToolConfig` objects and the `_last_circuit_break`
  dictionary become explicit state threaded through the functions.
* Cooperative concurrency of the deferred tier (`asyncio.gather`) is
  modelled by running every task against the state snapshot taken when the
  tasks are created, and applying their state writes in an arbitrary
  *completion order* (`completionOrder` parameter).  `asyncio.gather`
  itself returns the per-task values in task-creation order, which is how
  the source consumes them.
-/

/- `Rat.add`, `Rat.sub`, `Rat.mul` and `Rat.inv` are `@[irreducible]` in the
library, which blocks `decide` on concrete rational arithmetic; restore
their reducibility for this file so concrete runs evaluate. -/
attribute [local semireducible] Rat.add Rat.sub Rat.mul Rat.inv

/-- Priority levels for search tools (`SearchPriority` enum). -/
inductive SearchPriority where
  | CRITICAL
  | HIGH
  | MEDIUM
  | LOW
  | FALLBACK
  deriving DecidableEq, BEq

/-- Numeric value of a priority level (`SearchPriority.value`). -/
def SearchPriority.value : SearchPriority → Nat
  | .CRITICAL => 0
  | .HIGH => 1
  | .MEDIUM => 2
  | .LOW => 3
  | .FALLBACK => 4

/-- One search result dictionary.  Only the fields the executor inspects are
modelled; `result.get("url", "")` is the `url` field, where `""` stands for
a missing or empty URL (both are falsy in Python).  `title` and `snippet`
carry the rest of the payload so that distinct items can be distinguished. -/
structure ResultItem where
  url : String
  title : String
  snippet : String
  deriving DecidableEq, BEq

/-- Configuration and mutable statistics of one registered search tool
(`SearchToolConfig` dataclass).  `toolId` models `id(config.tool)` and
`name` models `config.tool.__class__.__name__`. -/
structure SearchToolConfig where
  toolId : Nat
  name : String
  priority : SearchPriority
  timeout : ℚ
  max_results : Nat
  weight : ℚ
  enabled : Bool
  avg_response_time : ℚ
  success_rate : ℚ
  last_success : Bool
  request_count : Nat
  deriving DecidableEq

instance : Inhabited SearchToolConfig :=
  ⟨{ toolId := 0, name := "", priority := .FALLBACK, timeout := 0,
     max_results := 0, weight := 1, enabled := false,
     avg_response_time := 0, success_rate := 1, last_success := true,
     request_count := 0 }⟩

/-- `SearchToolConfig.update_stats(response_time, success)`: increment the
request count, update the exponential moving average of the response time
(α = 0.3) and the cumulative-mean success rate, and record the outcome. -/
def update_stats (cfg : SearchToolConfig) (response_time : ℚ) (success : Bool) :
    SearchToolConfig :=
  let request_count := cfg.request_count + 1
  let alpha : ℚ := 3/10
  let avg :=
    if request_count > 1 then
      (1 - alpha) * cfg.avg_response_time + alpha * response_time
    else
      response_time
  let rate :=
    (cfg.success_rate * ((request_count : ℚ) - 1) +
      (if success then (1 : ℚ) else 0)) / (request_count : ℚ)
  { cfg with
    request_count := request_count
    avg_response_time := avg
    success_rate := rate
    last_success := success }

/-- `self._circuit_breaker_threshold = 0.3`. -/
def circuit_breaker_threshold : ℚ := 3/10

/-- `self._circuit_breaker_reset_time = 60.0`. -/
def circuit_breaker_reset_time : ℚ := 60

/-- The `_last_circuit_break` dictionary: tool id ↦ timestamp of the last
break, `none` when the key is absent. -/
def BreakTable := Nat → Option ℚ

/-- `ParallelSearchExecutor._is_circuit_broken(config)`, at wall-clock time
`now`.  A missing dictionary entry reads as `0` (`dict.get(tool_id, 0)`). -/
def is_circuit_broken (cfg : SearchToolConfig) (last_circuit_break : BreakTable)
    (now : ℚ) : Bool :=
  if cfg.success_rate > circuit_breaker_threshold then
    false
  else
    let last_break_time := (last_circuit_break cfg.toolId).getD 0
    if now - last_break_time < circuit_breaker_reset_time then
      true
    else
      false

/-- Outcome of one `await tool.search(query, max_results)` call: a returned
result list, an escaped exception, or an `asyncio.TimeoutError`. -/
inductive SearchOutcome where
  | ok (items : List ResultItem)
  | err
  | timeout
  deriving DecidableEq

/-- Oracle describing one adapter call: its outcome and its duration. -/
structure CallBehavior where
  outcome : SearchOutcome
  elapsed : ℚ
  deriving DecidableEq

/-- Everything `_execute_search_with_timeout` produces: the returned pair
`(results, success)`, the updated `SearchToolConfig`, the write (if any)
performed by `_break_circuit` on `_last_circuit_break`, and the wall-clock
time the call consumed. -/
structure CallOut where
  results : List ResultItem
  success : Bool
  config : SearchToolConfig
  break_write : Option (Nat × ℚ)
  elapsed : ℚ

/-- Apply a `_break_circuit` dictionary write to the break table. -/
def applyBreakWrite (lb : BreakTable) : Option (Nat × ℚ) → BreakTable
  | none => lb
  | some (k, v) => fun x => if x = k then some v else lb x

/-- `ParallelSearchExecutor._execute_search_with_timeout(config, query)` at
time `now`, with the adapter call behaviour given by `beh`.  A disabled or
circuit-broken tool returns `([], False)` before any statistics are
touched.  Otherwise the call runs: `results = tool_results if tool_results
else []` with `success = True` on normal return, `([], False)` on timeout
or exception; `update_stats` runs in the `finally` block, and
`_break_circuit` fires when the call failed and the new success rate is
strictly below the threshold.  `_break_circuit` records
`time.time()` at call end, i.e. `now + beh.elapsed`. -/
def execute_search_with_timeout (cfg : SearchToolConfig) (lb : BreakTable)
    (now : ℚ) (beh : CallBehavior) : CallOut :=
  if !cfg.enabled || is_circuit_broken cfg lb now then
    { results := [], success := false, config := cfg,
      break_write := none, elapsed := 0 }
  else
    let rs : List ResultItem × Bool :=
      match beh.outcome with
      | .ok items => (items, true)
      | .err => ([], false)
      | .timeout => ([], false)
    let cfg2 := update_stats cfg beh.elapsed rs.2
    let w :=
      if !rs.2 && decide (cfg2.success_rate < circuit_breaker_threshold) then
        some (cfg.toolId, now + beh.elapsed)
      else
        none
    { results := rs.1, success := rs.2, config := cfg2,
      break_write := w, elapsed := beh.elapsed }

/-- Stable insertion of index `i` into an already sorted index list: `i`
goes after every index whose key is ≤ its own, matching the stability of
Python's `sorted`. -/
def insertByKey (key : Nat → Nat) (acc : List Nat) (i : Nat) : List Nat :=
  match acc with
  | [] => [i]
  | j :: rest =>
    if key j ≤ key i then j :: insertByKey key rest i else i :: j :: rest

/-- `sorted(self._tool_configs, key=lambda c: c.priority.value)`, as the
list of positions into the registration list, sorted stably by priority
value. -/
def sortIdx (cfgs : List SearchToolConfig) : List Nat :=
  (List.range cfgs.length).foldl
    (insertByKey fun i => (cfgs.getD i default).priority.value) []

/-- `config.priority in (SearchPriority.CRITICAL, SearchPriority.HIGH)`. -/
def isUrgent (p : SearchPriority) : Bool :=
  match p with
  | .CRITICAL => true
  | .HIGH => true
  | _ => false

/-- The `high_priority_configs` list (as positions). -/
def urgentIdx (cfgs : List SearchToolConfig) : List Nat :=
  (sortIdx cfgs).filter fun i => isUrgent (cfgs.getD i default).priority

/-- The `lower_priority_configs` list (as positions), before the early-exit
check. -/
def deferIdx (cfgs : List SearchToolConfig) : List Nat :=
  (sortIdx cfgs).filter fun i => !isUrgent (cfgs.getD i default).priority

/-- Result of the sequential urgent phase of `execute_prioritized_search`:
accumulated `all_results`, `successful_tools`, the `critical_succeeded`
flag, the updated configs and break table, and the clock after the phase. -/
structure PhaseOut where
  results : List ResultItem
  tools : List String
  critical : Bool
  cfgs : List SearchToolConfig
  lastBreak : BreakTable
  t : ℚ

/-- The sequential loop over `high_priority_configs`: each config is called
in order with the then-current state; on success its results extend
`all_results` and its name is appended to `successful_tools`;
`critical_succeeded` is set by a successful CRITICAL call.  The clock
advances by the time each call consumed. -/
def urgentPhase (b : Nat → CallBehavior) :
    List Nat → List SearchToolConfig → BreakTable → ℚ → PhaseOut
  | [], cfgs, lb, t => ⟨[], [], false, cfgs, lb, t⟩
  | i :: rest, cfgs, lb, t =>
    let cfg := cfgs.getD i default
    let c := execute_search_with_timeout cfg lb t (b cfg.toolId)
    let r := urgentPhase b rest (cfgs.set i c.config)
      (applyBreakWrite lb c.break_write) (t + c.elapsed)
    { r with
      results := (if c.success then c.results else []) ++ r.results
      tools := (if c.success then [cfg.name] else []) ++ r.tools
      critical := (c.success && (cfg.priority == .CRITICAL)) || r.critical }

/-- One `asyncio.gather` task of the deferred phase, run against the state
snapshot taken when the tasks are created. -/
structure TaskOut where
  idx : Nat
  name : String
  results : List ResultItem
  success : Bool
  config : SearchToolConfig
  break_write : Option (Nat × ℚ)

/-- Create the task for position `i` of the registration list, against the
snapshot `(cfgs, lb, t)`. -/
def runTask (b : Nat → CallBehavior) (cfgs : List SearchToolConfig)
    (lb : BreakTable) (t : ℚ) (i : Nat) : TaskOut :=
  let cfg := cfgs.getD i default
  let c := execute_search_with_timeout cfg lb t (b cfg.toolId)
  ⟨i, cfg.name, c.results, c.success, c.config, c.break_write⟩

/-- Result of the concurrent deferred phase. -/
structure DeferOut where
  results : List ResultItem
  tools : List String
  cfgs : List SearchToolConfig
  lastBreak : BreakTable

/-- The deferred phase: all `lower_priority_configs` tasks are created
against the same snapshot (they are scheduled together by
`asyncio.gather`); each task's write to its own config object and to
`_last_circuit_break` lands when the task completes, i.e. in
`completionOrder` (a permutation of task positions); but
`asyncio.gather` returns the `(results, success)` pairs in task-creation
order, and the source extends `all_results` / `successful_tools` in that
order. -/
def deferredPhase (b : Nat → CallBehavior) (idxs : List Nat)
    (cfgs : List SearchToolConfig) (lb : BreakTable) (t : ℚ)
    (completionOrder : List Nat) : DeferOut :=
  let tasks := idxs.map (runTask b cfgs lb t)
  let final := completionOrder.foldl
    (fun (acc : List SearchToolConfig × BreakTable) pos =>
      match tasks.get? pos with
      | none => acc
      | some tk => (acc.1.set tk.idx tk.config, applyBreakWrite acc.2 tk.break_write))
    (cfgs, lb)
  { results := tasks.foldr (fun tk acc =>
      (if tk.success then tk.results else []) ++ acc) []
    tools := tasks.foldr (fun tk acc =>
      (if tk.success then [tk.name] else []) ++ acc) []
    cfgs := final.1
    lastBreak := final.2 }

/-- The deduplication loop of `execute_prioritized_search`: walk
`all_results` keeping a set of seen URLs; a result with a non-empty unseen
URL is kept and its URL marked seen; a result with an empty (or missing)
URL is always kept; a result with a seen URL is dropped. -/
def dedupAux (seen : List String) : List ResultItem → List ResultItem
  | [] => []
  | r :: rest =>
    if r.url ≠ "" ∧ r.url ∉ seen then
      r :: dedupAux (r.url :: seen) rest
    else if r.url = "" then
      r :: dedupAux seen rest
    else
      dedupAux seen rest

/-- `deduplicated_results` computed from `all_results`. -/
def dedupResults (l : List ResultItem) : List ResultItem :=
  dedupAux [] l

/-- The observable outcome of one `execute_prioritized_search` call:
the returned dictionary fields (`results`, `sources`) together with the
internal values the specification talks about (`all_results` before
deduplication, the urgent-phase accumulations, the `critical_succeeded`
flag, whether the early exit fired) and the post-call executor state. -/
structure ExecOut where
  results : List ResultItem
  sources : List String
  allResults : List ResultItem
  urgentResults : List ResultItem
  criticalSucceeded : Bool
  earlyExit : Bool
  cfgs : List SearchToolConfig
  lastBreak : BreakTable

/-- `ParallelSearchExecutor.execute_prioritized_search(query)` for a fixed
query, with per-tool call behaviour `b`, starting from registration list
`cfgs`, break table `lb`, at wall-clock time `t`.  With no registered
tools it returns the empty response.  Otherwise the urgent tiers run
sequentially; if a CRITICAL call succeeded and `len(all_results) >= 5` the
deferred tiers are skipped (`lower_priority_configs = []`), else they run
concurrently; finally results are merged in completion-independent task
order and deduplicated by URL. -/
def execute_prioritized_search (cfgs : List SearchToolConfig)
    (lb : BreakTable) (t : ℚ) (b : Nat → CallBehavior)
    (completionOrder : List Nat) : ExecOut :=
  if cfgs.isEmpty then
    ⟨[], [], [], [], false, false, cfgs, lb⟩
  else
    let u := urgentPhase b (urgentIdx cfgs) cfgs lb t
    let exitE := u.critical && decide (5 ≤ u.results.length)
    let lIdx := if exitE then [] else deferIdx cfgs
    let d := deferredPhase b lIdx u.cfgs u.lastBreak u.t completionOrder
    let allRes := u.results ++ d.results
    ⟨dedupResults allRes, u.tools ++ d.tools, allRes, u.results,
      u.critical, exitE, d.cfgs, d.lastBreak⟩

example :
    dedupResults [⟨"a", "1", ""⟩, ⟨"", "2", ""⟩, ⟨"a", "3", ""⟩, ⟨"", "2", ""⟩] =
      [⟨"a", "1", ""⟩, ⟨"", "2", ""⟩, ⟨"", "2", ""⟩] := by
  decide

/-!
Embedding of `AgenticSearchEngine._generate_related_searches`.

Python string primitives are reproduced on `List Char`:
`str.strip()`, `str.strip('"\'')`, `str.rstrip(',')`, `str.split(sep)`
(Lean's `String.splitOn` has the same semantics for a non-empty
separator), substring membership (`sub in s`), `str.startswith(tuple)`,
and `str.lower()`.

`json.loads` followed by the source's
`isinstance(related_queries, list) and all(isinstance(q, str) ...)` guard
is modelled by a recursive-descent parser for a JSON array of strings:
any input that is not a full JSON array of string literals makes the
source fall through to the line-by-line fallback (either via
`json.JSONDecodeError` or via the `isinstance` guard failing), which the
parser models by returning `none`.  The parser is conservative about
exotic escapes (`\uXXXX` is rejected rather than decoded), which only
sends more inputs to the fallback branch.

The regular expression `r'^\\d+[\.\)]\\s*'` of the source is reproduced
literally: because its backslashes are doubled inside a raw string, it
matches a literal backslash, one or more `d` characters, a dot or closing
parenthesis, a literal backslash, and zero or more `s` characters — not
decimal numbering.
-/

/-- `str.split(sep)` on character lists (fuel-driven scan; the fuel is
always sufficient because every step consumes at least one character). -/
def splitOnCharsAux (sep : List Char) : Nat → List Char → List Char →
    List (List Char)
  | 0, _, cur => [cur.reverse]
  | fuel + 1, l, cur =>
    match l with
    | [] => [cur.reverse]
    | c :: rest =>
      if sep.isPrefixOf (c :: rest) then
        cur.reverse :: splitOnCharsAux sep fuel (rest.drop (sep.length - 1)) []
      else
        splitOnCharsAux sep fuel rest (c :: cur)

/-- `s.split(sep)` for a non-empty separator (same semantics as Python's
`str.split` and Lean's `String.splitOn`, but fully reducible). -/
def pySplit (sep s : String) : List String :=
  (splitOnCharsAux sep.toList (s.toList.length + 1) s.toList []).map String.mk

/-- `s.startswith(p)`. -/
def pyStartsWith (s p : String) : Bool :=
  p.toList.isPrefixOf s.toList

/-- `s.lower()`. -/
def pyToLower (s : String) : String :=
  String.mk (s.toList.map Char.toLower)

/-- Characters stripped by Python's `str.strip()`. -/
def pyWsChars : List Char := [' ', '\t', '\n', '\r', '\x0b', '\x0c']

def isPyWs (c : Char) : Bool := pyWsChars.contains c

/-- `str.strip()`. -/
def pyStrip (s : String) : String :=
  String.mk (((s.toList.dropWhile isPyWs).reverse.dropWhile isPyWs).reverse)

/-- `str.strip('"\'')`. -/
def pyStripQuotes (s : String) : String :=
  let qs : List Char := ['"', '\'']
  String.mk (((s.toList.dropWhile qs.contains).reverse.dropWhile qs.contains).reverse)

/-- `str.rstrip(',')`. -/
def pyRstripComma (s : String) : String :=
  String.mk ((s.toList.reverse.dropWhile (· == ',')).reverse)

/-- `sub in s` for a non-empty `sub`. -/
def pyIn (sub s : String) : Bool :=
  decide (2 ≤ (pySplit sub s).length)

/-- `re.sub(r'^\\d+[\.\)]\\s*', '', s)`: remove the prefix made of a
literal backslash, one or more `d`s, `.` or `)`, a literal backslash and
zero or more `s`s, if present. -/
def reSubNumbering (s : String) : String :=
  match s.toList with
  | '\\' :: rest =>
    let ds := rest.dropWhile (· == 'd')
    if ds.length < rest.length then
      match ds with
      | c :: rest2 =>
        if c == '.' || c == ')' then
          match rest2 with
          | '\\' :: rest3 => String.mk (rest3.dropWhile (· == 's'))
          | _ => s
        else s
      | [] => s
    else s
  | _ => s

/-- JSON whitespace. -/
def jsonWsChars : List Char := [' ', '\t', '\n', '\r']

def isJsonWs (c : Char) : Bool := jsonWsChars.contains c

/-- JSON string escapes accepted by the model, as source/decoded pairs
(`\uXXXX` is rejected, conservatively sending such inputs to the
fallback branch). -/
def jsonEscPairs : List (Char × Char) :=
  [('"', '"'), ('\\', '\\'), ('/', '/'), ('n', '\n'), ('t', '\t'),
   ('r', '\r'), ('b', '\x08'), ('f', '\x0c')]

def jsonEsc (c : Char) : Option Char :=
  (jsonEscPairs.find? (fun pr => pr.1 == c)).map (fun pr => pr.2)

/-- Parse the remainder of a JSON string literal (the opening quote is
already consumed); returns the decoded string and the rest of the input. -/
def parseStringLit : List Char → List Char → Option (String × List Char)
  | _, [] => none
  | acc, '"' :: rest => some (String.mk acc.reverse, rest)
  | _, ['\\'] => none
  | acc, '\\' :: c :: rest2 =>
    match jsonEsc c with
    | some e => parseStringLit (e :: acc) rest2
    | none => none
  | acc, c :: rest => parseStringLit (c :: acc) rest

/-- Parse one or more comma-separated JSON string literals followed by the
closing bracket. -/
def parseItemsAux (fuel : Nat) (l : List Char) : Option (List String × List Char) :=
  match fuel with
  | 0 => none
  | fuel + 1 =>
    match l.dropWhile isJsonWs with
    | '"' :: rest =>
      match parseStringLit [] rest with
      | none => none
      | some (s, rest2) =>
        match rest2.dropWhile isJsonWs with
        | ',' :: rest3 =>
          match parseItemsAux fuel rest3 with
          | some (ss, rest4) => some (s :: ss, rest4)
          | none => none
        | ']' :: rest3 => some ([s], rest3)
        | _ => none
    | _ => none

/-- `json.loads` restricted to the shapes the source accepts: a complete
JSON array of strings (otherwise the source reaches its line-by-line
fallback). -/
def parseJsonStringArray (s : String) : Option (List String) :=
  match s.toList.dropWhile isJsonWs with
  | '[' :: rest =>
    match rest.dropWhile isJsonWs with
    | ']' :: rest2 =>
      if (rest2.dropWhile isJsonWs).isEmpty then some [] else none
    | _ =>
      match parseItemsAux s.toList.length rest with
      | some (ss, rest2) =>
        if (rest2.dropWhile isJsonWs).isEmpty then some ss else none
      | none => none
  | _ => none

/-- `json_start_index = result_text.find("["); clean_text =
result_text[json_start_index:]` when found, else `clean_text` stays the
whole text. -/
def findBracketSuffix (s : String) : String :=
  let dropped := s.toList.dropWhile (· != '[')
  if dropped.isEmpty then s else String.mk dropped

/-- The code-fence stripping step of `_generate_related_searches`:
`result_text.split("```json")[1].split("```")[0].strip()` when the text
contains a ` ```json ` fence, else `parts = result_text.split("```")` with
`parts[1].strip()` when it contains plain fences, else the text itself. -/
def cleanLLMText (t : String) : String :=
  if pyIn "```json" t then
    pyStrip (((pySplit "```" ((pySplit "```json" t).getD 1 "")).getD 0 ""))
  else if pyIn "```" t then
    let parts := pySplit "```" t
    if 1 < parts.length then pyStrip (parts.getD 1 "")
    else findBracketSuffix t
  else t

/-- A line skipped by the fallback loop: empty after stripping, a lone
bracket/brace/comma, or a `//` or `#` comment. -/
def lineSkipped (line : String) : Bool :=
  line == "" || line == "[" || line == "]" || line == "\x7b" ||
    line == "\x7d" || line == "," ||
    pyStartsWith line "//" || pyStartsWith line "#"

/-- `re.sub(r'^\\d+[\.\)]\\s*', '', line.strip('"\'').rstrip(','))`. -/
def cleanedLineOf (line : String) : String :=
  reSubNumbering (pyRstripComma (pyStripQuotes line))

/-- `s.startswith((p₁, p₂, ...))`. -/
def startsWithAny (s : String) (ps : List String) : Bool :=
  ps.any (fun p => pyStartsWith s p)

/-- The acceptance test of the fallback loop:
`cleaned_line and len(cleaned_line) > 3 and not
cleaned_line.lower().startswith(("here", "example", "sure", "based on"))`. -/
def lineAccepted (cleaned : String) : Bool :=
  cleaned != "" && decide (3 < cleaned.length) &&
    !(startsWithAny (pyToLower cleaned) ["here", "example", "sure", "based on"])

/-- The line-by-line fallback loop, with its early `break` once
`max_suggestions` lines are collected. -/
def fallbackExtract (max_suggestions : Nat) (acc : List String) :
    List String → List String
  | [] => acc
  | l :: rest =>
    let line := pyStrip l
    if lineSkipped line then fallbackExtract max_suggestions acc rest
    else
      let cleaned := cleanedLineOf line
      if lineAccepted cleaned then
        let acc2 := acc ++ [cleaned]
        if max_suggestions ≤ acc2.length then acc2
        else fallbackExtract max_suggestions acc2 rest
      else fallbackExtract max_suggestions acc rest

/-- The body of `_generate_related_searches` applied to a language-model
response text (`response.content`): strip, strip code fences, attempt the
JSON parse (returning the parsed queries truncated to `max_suggestions`
on success), otherwise split into lines — first on the two-character
sequence `\n`, then on real newlines if that produced a single line and a
newline is present — run the fallback extraction, and return the
collected lines, or the empty list when none survived. -/
def generate_related_searches_text (max_suggestions : Nat)
    (content : String) : List String :=
  let result_text := pyStrip content
  let clean_text := cleanLLMText result_text
  match parseJsonStringArray clean_text with
  | some qs => qs.take max_suggestions
  | none =>
    let lines0 := pySplit "\\n" result_text
    let lines :=
      if lines0.length = 1 && pyIn "\n" result_text then
        pySplit "\n" result_text
      else lines0
    let fq := fallbackExtract max_suggestions [] lines
    if fq.isEmpty then [] else fq.take max_suggestions

/-- `AgenticSearchEngine._generate_related_searches(query, synthesis)`.
The language-model invocation is the oracle `llm`; when it raises
(`.error`), the surrounding `except` returns the three generic
suggestions built from the query; otherwise the response text is
processed by `generate_related_searches_text`.  The function is total:
no exception reaches the caller. -/
def generate_related_searches (query : String) (max_suggestions : Nat)
    (llm : Except Unit String) : List String :=
  match llm with
  | .error _ =>
    [ "Explore deeper aspects of " ++ query,
      "Follow-up questions for " ++ query ++ " research",
      "Related topics to " ++ query ++ " synthesis" ].take max_suggestions
  | .ok content => generate_related_searches_text max_suggestions content

example : generate_related_searches "q" 5 (.ok "here") = [] := by decide
example :
    generate_related_searches "q" 5 (.ok "[\"a b c d\", \"e f g h\"]") =
      ["a b c d", "e f g h"] := by decide

/-!
Embedding of `AgenticSearchEngine.execute_research` and its data entities.

The language model and the search layer are oracles:

* `planInitial` is the parsed result of `_plan_initial_research` — its
  `.ok` value is the `initial_queries` list (the JSON-parse fallback of
  that method never raises, so `.error` models only the LLM invocation
  itself raising);
* `search` is `_execute_search` (total: the parallel executor catches all
  adapter failures), returning `(results, sources)`;
* `analyze` is the parsed result of `_analyze_results_and_plan_next` for
  the call made when the plan has `n` steps (again `.error` models the
  LLM invocation raising — its JSON repair/fallback chain never raises);
* `synthesize` is `_synthesize_research`;
* `relatedText` is the LLM response inside `_generate_related_searches`.

Unmodelled fields that no claim mentions (uuid step ids, timestamps,
per-step execution time, `final_answer`) are omitted.
-/

/-- One entry of an `initial_queries` / `next_queries` list. -/
structure QueryInfo where
  query : String
  reasoning : String
  deriving DecidableEq

/-- The parsed analysis dictionary, restricted to the fields
`execute_research` reads. -/
structure AnalysisResult where
  information_sufficient : Bool
  next_queries : List QueryInfo
  deriving DecidableEq

/-- `ResearchStep`, restricted to the fields the claims mention. -/
structure ResearchStep where
  query : String
  reasoning : String
  results : List ResultItem
  sources : List ResultItem
  deriving DecidableEq

/-- `ResearchPlan`.  `planned_queries` is the attribute added dynamically
by `execute_research` (absent on a fresh plan, modelled as `[]`). -/
structure ResearchPlan where
  id : Nat
  original_query : String
  steps : List ResearchStep
  synthesis : String
  status : String
  planned_queries : List QueryInfo
  deriving DecidableEq

/-- `ResearchPlan(original_query=query)`. -/
def freshPlan (id : Nat) (query : String) : ResearchPlan :=
  { id := id, original_query := query, steps := [], synthesis := "",
    status := "initiated", planned_queries := [] }

/-- `plan.add_step(step)`. -/
def add_step (p : ResearchPlan) (s : ResearchStep) : ResearchPlan :=
  { p with steps := p.steps ++ [s] }

/-- Build a `ResearchStep` from a query, its reasoning and the value of
`await self._execute_search(query)`. -/
def mkStep (q reasoning : String) (sr : List ResultItem × List ResultItem) :
    ResearchStep :=
  ⟨q, reasoning, sr.1, sr.2⟩

/-- The collaborators of the engine, as oracles. -/
structure EngineOracles where
  planInitial : Except Unit (List QueryInfo)
  search : String → List ResultItem × List ResultItem
  analyze : Nat → Except Unit AnalysisResult
  synthesize : Except Unit String
  relatedText : Except Unit String

/-- Selection of the next query inside the iteration loop: take the head
of `next_queries` (buffering the tail in `planned_queries`); with no
suggested queries, pop a buffered planned query; with neither, fall back
to `f"{query} additional details"`. -/
def nextQueryChoice (query : String) (a : AnalysisResult) (p : ResearchPlan) :
    QueryInfo × ResearchPlan :=
  match a.next_queries with
  | [] =>
    match p.planned_queries with
    | pq :: restPQ => (pq, { p with planned_queries := restPQ })
    | [] =>
      (⟨query ++ " additional details", "Gathering more specific information"⟩, p)
  | nq :: restNQ => (nq, { p with planned_queries := restNQ })

/-- The `while iteration < self.max_iterations` loop.  The loop counter
`iteration` always equals `len(plan.steps)` (it starts there and both
advance by one per pass), so the remaining iteration budget
`max_iterations - len(plan.steps)` is the structural fuel.  Each pass
analyses the latest results; an `.error` from the analysis models the LLM
call raising, which aborts the plan (`Except.error` carries the plan as
gathered so far); a sufficiency signal exits the loop; otherwise the next
step is executed and appended. -/
def researchLoop (o : EngineOracles) (query : String) :
    Nat → ResearchPlan → Except ResearchPlan ResearchPlan
  | 0, p => .ok p
  | fuel + 1, p =>
    match o.analyze p.steps.length with
    | .error _ => .error p
    | .ok a =>
      if a.information_sufficient then .ok p
      else
        let np := nextQueryChoice query a p
        researchLoop o query fuel
          (add_step np.2 (mkStep np.1.query np.1.reasoning (o.search np.1.query)))

/-- The tail of the `try` block: run the iteration loop, then synthesize
(whose LLM call may raise) and mark the plan `completed`. -/
def loopPhase (o : EngineOracles) (maxIter : Nat) (query : String)
    (p : ResearchPlan) : Except ResearchPlan (ResearchPlan × String) :=
  match researchLoop o query (maxIter - p.steps.length) p with
  | .error p1 => .error p1
  | .ok p1 =>
    match o.synthesize with
    | .error _ => .error p1
    | .ok syn => .ok ({ p1 with synthesis := syn, status := "completed" }, syn)

/-- The first-step construction of `execute_research` for a plan with no
steps: a non-empty `initial_queries` list executes its first query and
buffers the rest in `planned_queries`; an empty or missing list falls
back to a direct search for the original query. -/
def initialPlanStep (o : EngineOracles) (query : String) (p : ResearchPlan)
    (qis : List QueryInfo) : ResearchPlan :=
  match qis with
  | q0 :: restQ =>
    { add_step p (mkStep q0.query q0.reasoning (o.search q0.query)) with
      planned_queries := restQ }
  | [] =>
    { add_step p
        (mkStep query "Initial direct search for the original query"
          (o.search query)) with
      planned_queries := [] }

/-- The whole `try` block of `execute_research`: for a plan with no steps,
run the initial planning call (its LLM call may raise) and build the first
step; then enter the iteration loop. -/
def researchBody (o : EngineOracles) (maxIter : Nat) (query : String)
    (p : ResearchPlan) : Except ResearchPlan (ResearchPlan × String) :=
  if p.steps.isEmpty then
    match o.planInitial with
    | .error _ => .error p
    | .ok qis => loopPhase o maxIter query (initialPlanStep o query p qis)
  else
    loopPhase o maxIter query p

/-- `self.active_plans[plan_id] = plan` (dictionary write). -/
def storePlan : List (Nat × ResearchPlan) → Nat → ResearchPlan →
    List (Nat × ResearchPlan)
  | [], k, v => [(k, v)]
  | (k0, v0) :: rest, k, v =>
    if k0 = k then (k, v) :: rest else (k0, v0) :: storePlan rest k v

/-- The response dictionary of `execute_research`, restricted to the
fields the claims mention. -/
structure ResearchResponse where
  plan_id : Nat
  original_query : String
  status : String
  iterations_completed : Nat
  max_iterations : Nat
  synthesis : String
  related_searches : List String
  deriving DecidableEq

/-- The body of `execute_research` once the plan to work on (`p0`, stored
under key `k`) has been selected: reset its status to `"in_progress"`,
run the `try` block, and either store/report the completed plan with its
related searches, or store/report it with status `"error"` and the fixed
error synthesis and empty related searches. -/
def execute_research_on (maxIter : Nat) (o : EngineOracles)
    (plans : List (Nat × ResearchPlan)) (k : Nat) (p0 : ResearchPlan)
    (query : String) : List (Nat × ResearchPlan) × ResearchResponse :=
  match researchBody o maxIter query { p0 with status := "in_progress" } with
  | .ok (p1, _) =>
    (storePlan plans k p1,
      ⟨p1.id, p1.original_query, p1.status, p1.steps.length, maxIter,
        p1.synthesis,
        generate_related_searches p1.original_query 5 o.relatedText⟩)
  | .error p1 =>
    (storePlan plans k { p1 with status := "error" },
      ⟨p1.id, p1.original_query, "error", p1.steps.length, maxIter,
        "An error occurred during the research process.", []⟩)

/-- `AgenticSearchEngine.execute_research(query, plan_id, ...)` with
`max_iterations = maxIter` and plan table `plans`; `newId` is the uuid a
freshly created plan receives.  An existing plan id resumes that plan
(its status is immediately reset to `"in_progress"`); a given but unknown
plan id, like an absent one, creates and registers a fresh plan. -/
def execute_research (maxIter : Nat) (o : EngineOracles)
    (plans : List (Nat × ResearchPlan)) (query : String)
    (planId : Option Nat) (newId : Nat) :
    List (Nat × ResearchPlan) × ResearchResponse :=
  match planId with
  | some pid =>
    match plans.lookup pid with
    | some p => execute_research_on maxIter o plans pid p query
    | none =>
      execute_research_on maxIter o plans newId (freshPlan newId query) query
  | none =>
    execute_research_on maxIter o plans newId (freshPlan newId query) query

/-- Oracles of a well-behaved run whose analysis immediately reports
sufficiency. -/
def oraclesSufficient : EngineOracles :=
  { planInitial := .ok []
    search := fun _ => ([], [])
    analyze := fun _ => .ok ⟨true, []⟩
    synthesize := .ok "report"
    relatedText := .ok "no suggestions" }

/-- Oracles of a well-behaved run whose analysis never reports
sufficiency. -/
def oraclesNeverSufficient : EngineOracles :=
  { planInitial := .ok []
    search := fun _ => ([], [])
    analyze := fun _ => .ok ⟨false, []⟩
    synthesize := .ok "report"
    relatedText := .ok "no suggestions" }

example :
    (execute_research 5 oraclesSufficient [] "q" none 0).2.iterations_completed
      = 1 := by decide
example :
    (execute_research 5 oraclesNeverSufficient [] "q" none 0).2.iterations_completed
      = 5 := by decide
example :
    (execute_research 5 oraclesNeverSufficient [] "q" none 0).2.status
      = "completed" := by decide

/-!
Concrete fixtures used by witnesses and counterexamples.
-/

/-- An empty `_last_circuit_break` dictionary. -/
def lbEmpty : BreakTable := fun _ => none

/-- A healthy freshly registered tool at a given tier. -/
def mkTool (id : Nat) (nm : String) (p : SearchPriority) : SearchToolConfig :=
  { toolId := id, name := nm, priority := p, timeout := 10, max_results := 10,
    weight := 1, enabled := true, avg_response_time := 0, success_rate := 1,
    last_success := true, request_count := 0 }

def cfgCrit : SearchToolConfig := mkTool 1 "CriticalTool" .CRITICAL
def cfgHigh : SearchToolConfig := mkTool 2 "SerperSearchTool" .HIGH
def cfgMed : SearchToolConfig := mkTool 3 "DuckDuckGoSearchTool" .MEDIUM
def cfgLow : SearchToolConfig := mkTool 4 "WikipediaSearchTool" .LOW

/-- A disabled tool. -/
def cfgDisabled : SearchToolConfig :=
  { mkTool 5 "DisabledTool" SearchPriority.MEDIUM with enabled := false }

/-- A tool whose statistics are 3 successes out of 9 calls
(success rate exactly 1/3, a state reachable by 3 successful and 6 failed
calls). -/
def cfgBorder : SearchToolConfig :=
  { mkTool 9 "BorderTool" SearchPriority.HIGH with
    success_rate := 1/3, request_count := 9 }

/-- A tool with 1 recorded call, a failure. -/
def cfgFailing : SearchToolConfig :=
  { mkTool 8 "FailingTool" SearchPriority.HIGH with
    success_rate := 0, last_success := false, request_count := 1 }

/-- A break table with a single entry: tool 8 broke at time 999990. -/
def lbTool8 : BreakTable := fun i => if i = 8 then some 999990 else none

def item (u nm : String) : ResultItem := ⟨u, nm, ""⟩

def fiveItems : List ResultItem :=
  [item "u1" "1", item "u2" "2", item "u3" "3", item "u4" "4", item "u5" "5"]

/-- Behaviour where the CRITICAL tool returns five items and every other
tool returns one item. -/
def bCritFive : Nat → CallBehavior := fun id =>
  if id = 1 then ⟨.ok fiveItems, 1⟩ else ⟨.ok [item "x" "x"], 1⟩

/-- Behaviour for the completion-order scenario: the MEDIUM tool (3)
returns its item, the LOW tool (4) returns its item. -/
def bTwoDeferred : Nat → CallBehavior := fun id =>
  if id = 3 then ⟨.ok [item "um" "med"], 2⟩
  else if id = 4 then ⟨.ok [item "ul" "low"], 1⟩
  else ⟨.ok [], 1⟩

/-- Behaviour where every tool succeeds with an empty result list. -/
def bEmptyOk : Nat → CallBehavior := fun _ => ⟨.ok [], 1⟩

/-- Behaviour where every tool's call raises. -/
def bErr : Nat → CallBehavior := fun _ => ⟨.err, 1⟩

/-- Behaviour with overlapping URLs across two tools. -/
def bOverlap : Nat → CallBehavior := fun id =>
  if id = 1 then ⟨.ok [item "shared" "a", item "" "blankA"], 1⟩
  else ⟨.ok [item "shared" "b", item "" "blankA"], 1⟩

/-- A research plan that has already completed one step. -/
def completedPlan : ResearchPlan :=
  { id := 7, original_query := "q", steps := [⟨"q", "r", [], []⟩],
    synthesis := "done", status := "completed", planned_queries := [] }

/-- Oracles whose synthesis LLM call raises. -/
def oraclesSynthRaises : EngineOracles :=
  { planInitial := .ok []
    search := fun _ => ([], [])
    analyze := fun _ => .ok ⟨true, []⟩
    synthesize := .error ()
    relatedText := .ok "" }

/-- Whether an adapter-call outcome is a normal return. -/
def outcomeOk : SearchOutcome → Bool
  | .ok _ => true
  | .err => false
  | .timeout => false

/-- Whether the call made for the config at position `i` returns normally
(no exception, no timeout). -/
def callSucceeded (cfgs : List SearchToolConfig) (b : Nat → CallBehavior)
    (i : Nat) : Bool :=
  outcomeOk (b (cfgs.getD i default).toolId).outcome

/-- The adapter class name registered at position `i`. -/
def nameAt (cfgs : List SearchToolConfig) (i : Nat) : String :=
  (cfgs.getD i default).name

/-!
Helper lemmas.
-/

theorem getD_set_ne {α : Type _} [Inhabited α] (l : List α) (i j : Nat)
    (a : α) (h : i ≠ j) : (l.set i a).getD j default = l.getD j default := by
  simp [List.getD_eq_getD_get?, List.get?_eq_getElem?, List.getElem?_set_ne h]

theorem getD_set_self {α : Type _} [Inhabited α] (l : List α) (i : Nat)
    (a : α) (h : i < l.length) : (l.set i a).getD i default = a := by
  simp [List.getD_eq_getD_get?, List.get?_eq_getElem?,
    List.getElem?_set_eq_of_lt a h]

/-- Once `u` is in the seen set, no item with URL `u` survives
deduplication of the remaining list. -/
theorem dedupAux_filter_of_seen (u : String) (hu : u ≠ "") :
    ∀ (l : List ResultItem) (seen : List String), u ∈ seen →
      (dedupAux seen l).filter (fun r => r.url == u) = [] := by
  intro l
  induction l with
  | nil => intro seen _; simp [dedupAux]
  | cons r rest ih =>
    intro seen hmem
    simp only [dedupAux]
    split
    · next h1 =>
      have hru : (r.url == u) = false :=
        beq_eq_false_iff_ne.mpr (fun he => h1.2 (he ▸ hmem))
      simp [List.filter_cons, hru, ih _ (List.mem_cons_of_mem _ hmem)]
    · split
      · next h2 =>
        have hru : (r.url == u) = false :=
          beq_eq_false_iff_ne.mpr (by rw [h2]; exact fun he => hu he.symm)
        simp [List.filter_cons, hru, ih seen hmem]
      · exact ih seen hmem

/-- While `u` is a non-empty URL not yet seen, deduplication keeps exactly
the first item bearing `u`. -/
theorem dedupAux_filter_of_fresh (u : String) (hu : u ≠ "") :
    ∀ (l : List ResultItem) (seen : List String), u ∉ seen →
      (dedupAux seen l).filter (fun r => r.url == u) =
        (l.filter (fun r => r.url == u)).take 1 := by
  intro l
  induction l with
  | nil => intro seen _; simp [dedupAux]
  | cons r rest ih =>
    intro seen hmem
    simp only [dedupAux]
    split
    · next h1 =>
      by_cases hru : r.url = u
      · have hb : (r.url == u) = true := beq_iff_eq.mpr hru
        have hseen : u ∈ r.url :: seen := by rw [hru]; exact List.mem_cons_self _ _
        simp [List.filter_cons, hb,
          dedupAux_filter_of_seen u hu rest (r.url :: seen) hseen]
      · have hb : (r.url == u) = false := beq_eq_false_iff_ne.mpr hru
        have hmem2 : u ∉ r.url :: seen := by
          intro hc
          rcases List.mem_cons.mp hc with hc | hc
          · exact hru hc.symm
          · exact hmem hc
        simp [List.filter_cons, hb, ih (r.url :: seen) hmem2]
    · split
      · next h2 =>
        have hb : (r.url == u) = false :=
          beq_eq_false_iff_ne.mpr (by rw [h2]; exact fun he => hu he.symm)
        simp [List.filter_cons, hb, ih seen hmem]
      · next h1 h2 =>
        have hru : r.url ≠ u := by
          intro he
          rcases not_and_or.mp h1 with hc | hc
          · exact hc (he ▸ (by simpa using hu) : r.url ≠ "")
          · exact hmem (he ▸ not_not.mp hc)
        have hb : (r.url == u) = false := beq_eq_false_iff_ne.mpr hru
        simp [List.filter_cons, hb, ih seen hmem]

/-- Items with an empty (missing) URL pass through deduplication
untouched, in order and multiplicity. -/
theorem dedupAux_filter_empty_url :
    ∀ (l : List ResultItem) (seen : List String),
      (dedupAux seen l).filter (fun r => r.url == "") =
        l.filter (fun r => r.url == "") := by
  intro l
  induction l with
  | nil => intro seen; simp [dedupAux]
  | cons r rest ih =>
    intro seen
    simp only [dedupAux]
    split
    · next h1 =>
      have hb : (r.url == "") = false := beq_eq_false_iff_ne.mpr h1.1
      simp [List.filter_cons, hb, ih (r.url :: seen)]
    · split
      · next h2 =>
        have hb : (r.url == "") = true := beq_iff_eq.mpr h2
        simp [List.filter_cons, hb, ih seen]
      · next h1 h2 =>
        have hb : (r.url == "") = false := beq_eq_false_iff_ne.mpr h2
        simp [List.filter_cons, hb, ih seen]

/-- The returned `results` field is the deduplication of the pre-dedup
merged list. -/
theorem execute_prioritized_search_results_eq (cfgs : List SearchToolConfig)
    (lb : BreakTable) (t : ℚ) (b : Nat → CallBehavior) (co : List Nat) :
    (execute_prioritized_search cfgs lb t b co).results =
      dedupResults (execute_prioritized_search cfgs lb t b co).allResults := by
  unfold execute_prioritized_search
  split <;> rfl

/-- C2: in the results list returned by `execute_prioritized_search`,
each non-empty URL occurs exactly once — the item kept is the first
occurrence of that URL in the pre-dedup merged list (`filter ... = take 1
of the pre-dedup filter`), and every item with a missing or empty URL is
retained verbatim, even if content-identical to another item. -/
theorem execute_prioritized_search_dedup_spec (cfgs : List SearchToolConfig)
    (lb : BreakTable) (t : ℚ) (b : Nat → CallBehavior) (co : List Nat)
    (u : String) (hu : u ≠ "") :
    (execute_prioritized_search cfgs lb t b co).results.filter
        (fun r => r.url == u) =
      ((execute_prioritized_search cfgs lb t b co).allResults.filter
        (fun r => r.url == u)).take 1 ∧
    (execute_prioritized_search cfgs lb t b co).results.filter
        (fun r => r.url == "") =
      (execute_prioritized_search cfgs lb t b co).allResults.filter
        (fun r => r.url == "") := by
  rw [execute_prioritized_search_results_eq]
  exact ⟨dedupAux_filter_of_fresh u hu _ [] (List.not_mem_nil u),
    dedupAux_filter_empty_url _ []⟩

/-- C2 witness: two tools return an overlapping URL `"shared"` and
content-identical URL-less items; the merged output keeps the first
`"shared"` item only and keeps both URL-less items. -/
theorem execute_prioritized_search_dedup_spec_witness :
    ("shared" ≠ "") ∧
    ((execute_prioritized_search [cfgCrit, cfgHigh] lbEmpty 0 bOverlap
        []).results.filter (fun r => r.url == "shared") =
      ((execute_prioritized_search [cfgCrit, cfgHigh] lbEmpty 0 bOverlap
        []).allResults.filter (fun r => r.url == "shared")).take 1 ∧
     (execute_prioritized_search [cfgCrit, cfgHigh] lbEmpty 0 bOverlap
        []).results.filter (fun r => r.url == "") =
      (execute_prioritized_search [cfgCrit, cfgHigh] lbEmpty 0 bOverlap
        []).allResults.filter (fun r => r.url == "")) :=
  ⟨by decide,
   execute_prioritized_search_dedup_spec [cfgCrit, cfgHigh] lbEmpty 0 bOverlap
     [] "shared" (by decide)⟩

/-- C10: a call on a disabled or circuit-open tool returns the empty
result set with the failure flag without invoking the tool, leaves the
tool's configuration (hence `request_count`, `success_rate`,
`avg_response_time`, `last_success`) unchanged and performs no write to
the `_last_circuit_break` table: the skip is not recorded as a call. -/
theorem skip_leaves_stats_unchanged (cfg : SearchToolConfig)
    (lb : BreakTable) (now : ℚ) (beh : CallBehavior)
    (h : (!cfg.enabled || is_circuit_broken cfg lb now) = true) :
    execute_search_with_timeout cfg lb now beh =
      { results := [], success := false, config := cfg,
        break_write := none, elapsed := 0 } := by
  unfold execute_search_with_timeout
  simp [h]

/-- C10 witness: a disabled tool is skipped without any state change. -/
theorem skip_leaves_stats_unchanged_witness :
    ((!cfgDisabled.enabled || is_circuit_broken cfgDisabled lbEmpty 0) = true) ∧
    execute_search_with_timeout cfgDisabled lbEmpty 0 ⟨.ok [item "u" "t"], 1⟩ =
      { results := [], success := false, config := cfgDisabled,
        break_write := none, elapsed := 0 } :=
  ⟨by decide,
   skip_leaves_stats_unchanged cfgDisabled lbEmpty 0 ⟨.ok [item "u" "t"], 1⟩
     (by decide)⟩

/-- C8 counterexample: the language model answering the pure prose
`"here"` (no JSON at all) makes `_generate_related_searches` return the
*empty* list — the JSON parse fails, the single line is discarded by the
`startswith(("here", ...))` filter, and the function then returns `[]`;
the non-empty generic default is only produced by the `except` branch,
which this path never reaches. -/
theorem generate_related_searches_empty_on_prose :
    generate_related_searches "q" 5 (.ok "here") = [] := by decide

/-- C8 amended: `_generate_related_searches` never raises (it is a total
function of the language-model outcome); when the language-model call
itself raises, the final fallback layer yields a non-empty default list;
and when the (fence-stripped) response parses as a non-empty JSON array
of strings the result is also non-empty.  But a response whose parse
fails and whose lines are all filtered out yields the empty list, so the
result is not non-empty for *every* output text. -/
theorem generate_related_searches_fallbacks :
    (∀ (query : String), generate_related_searches query 5 (.error ()) =
      [ "Explore deeper aspects of " ++ query,
        "Follow-up questions for " ++ query ++ " research",
        "Related topics to " ++ query ++ " synthesis" ] ∧
      generate_related_searches query 5 (.error ()) ≠ []) ∧
    (∀ (query content q : String) (qs : List String),
      parseJsonStringArray (cleanLLMText (pyStrip content)) = some (q :: qs) →
      generate_related_searches query 5 (.ok content) ≠ []) := by
  constructor
  · intro query
    constructor
    · rfl
    · simp [generate_related_searches]
  · intro query content q qs h
    simp [generate_related_searches, generate_related_searches_text, h]

/-- C8 amended witness: the exception branch and a JSON-parsing response
both yield non-empty suggestion lists. -/
theorem generate_related_searches_fallbacks_witness :
    (generate_related_searches "q" 5 (.error ()) =
      [ "Explore deeper aspects of q",
        "Follow-up questions for q research",
        "Related topics to q synthesis" ] ∧
      generate_related_searches "q" 5 (.error ()) ≠ []) ∧
    generate_related_searches "q" 5 (.ok "[\"alpha beta\"]") ≠ [] :=
  ⟨generate_related_searches_fallbacks.1 "q",
   generate_related_searches_fallbacks.2 "q" "[\"alpha beta\"]" "alpha beta" []
     (by decide)⟩

/-- C4 counterexample: `cfgBorder` has success rate 1/3 over 9 calls
(3 successes).  A failing call at time 10⁶ leaves its success rate at
*exactly* the 0.3 threshold — "at or below" in the claim's words — yet
`_break_circuit` is **not** called (`success_rate < threshold` is strict),
no timestamp is recorded, and a call attempted one second later (well
inside any 60-second window) invokes the adapter again, raising its
request count from 10 to 11.  The trip condition in the code is strictly
below the threshold, not at-or-below. -/
theorem circuit_breaker_not_tripped_at_threshold :
    (execute_search_with_timeout cfgBorder lbEmpty 1000000 ⟨.err, 1⟩).success
        = false ∧
    (execute_search_with_timeout cfgBorder lbEmpty 1000000
        ⟨.err, 1⟩).config.success_rate = circuit_breaker_threshold ∧
    (execute_search_with_timeout cfgBorder lbEmpty 1000000 ⟨.err, 1⟩).break_write
        = none ∧
    (execute_search_with_timeout
        (execute_search_with_timeout cfgBorder lbEmpty 1000000 ⟨.err, 1⟩).config
        lbEmpty 1000001 ⟨.err, 1⟩).config.request_count = 11 := by
  decide

/-- C4 amended: the circuit breaker trips when a failed call leaves the
success rate *strictly below* the 0.3 threshold (then the break timestamp
is recorded at the call's end time); while the rate is at or below the
threshold and a recorded break lies less than 60 seconds in the past, the
adapter is skipped without any state change (never invoked); and any call
attempted once 60 seconds have elapsed since the recorded break invokes
the adapter again (one probe attempt). -/
theorem circuit_breaker_trip_skip_probe :
    (∀ (cfg : SearchToolConfig) (lb : BreakTable) (now : ℚ) (beh : CallBehavior),
      cfg.enabled = true →
      is_circuit_broken cfg lb now = false →
      (beh.outcome = .err ∨ beh.outcome = .timeout) →
      (update_stats cfg beh.elapsed false).success_rate <
        circuit_breaker_threshold →
      (execute_search_with_timeout cfg lb now beh).break_write =
        some (cfg.toolId, now + beh.elapsed)) ∧
    (∀ (cfg : SearchToolConfig) (lb : BreakTable) (now : ℚ) (beh : CallBehavior)
      (tb : ℚ),
      cfg.success_rate ≤ circuit_breaker_threshold →
      lb cfg.toolId = some tb →
      now - tb < circuit_breaker_reset_time →
      execute_search_with_timeout cfg lb now beh =
        { results := [], success := false, config := cfg,
          break_write := none, elapsed := 0 }) ∧
    (∀ (cfg : SearchToolConfig) (lb : BreakTable) (now : ℚ) (beh : CallBehavior)
      (tb : ℚ),
      cfg.enabled = true →
      lb cfg.toolId = some tb →
      circuit_breaker_reset_time ≤ now - tb →
      (execute_search_with_timeout cfg lb now beh).config.request_count =
        cfg.request_count + 1) := by
  refine ⟨?_, ?_, ?_⟩
  · intro cfg lb now beh hen hnb hfail hrate
    obtain ⟨o, e⟩ := beh
    unfold execute_search_with_timeout
    rw [hen, hnb]
    rcases hfail with h | h <;> subst h <;>
      simp [update_stats] at hrate ⊢ <;> simp [hrate]
  · intro cfg lb now beh tb hrate hlb hwin
    have hb : is_circuit_broken cfg lb now = true := by
      unfold is_circuit_broken
      rw [if_neg (not_lt.mpr hrate)]
      rw [hlb]
      simp [hwin]
    unfold execute_search_with_timeout
    simp [hb]
  · intro cfg lb now beh tb hen hlb hwin
    have hb : is_circuit_broken cfg lb now = false := by
      unfold is_circuit_broken
      split
      · rfl
      · rw [hlb]
        simp [not_lt.mpr hwin]
    unfold execute_search_with_timeout
    rw [hen, hb]
    obtain ⟨o, e⟩ := beh
    cases o <;> simp [update_stats]

/-- C4 amended witness: a failure dropping the rate strictly below the
threshold records a break; a call 10 seconds after a recorded break is
skipped with no state change; a call 70 seconds after the break invokes
the tool again. -/
theorem circuit_breaker_trip_skip_probe_witness :
    (execute_search_with_timeout cfgFailing lbEmpty 1000000
        ⟨.err, 1⟩).break_write = some (cfgFailing.toolId, 1000001) ∧
    execute_search_with_timeout cfgFailing lbTool8 1000000 ⟨.err, 1⟩ =
      { results := [], success := false, config := cfgFailing,
        break_write := none, elapsed := 0 } ∧
    (execute_search_with_timeout cfgFailing lbTool8 1000050
        ⟨.err, 1⟩).config.request_count = cfgFailing.request_count + 1 :=
  ⟨circuit_breaker_trip_skip_probe.1 cfgFailing lbEmpty 1000000 ⟨.err, 1⟩
      (by decide) (by decide) (Or.inl rfl) (by decide),
   circuit_breaker_trip_skip_probe.2.1 cfgFailing lbTool8 1000000 ⟨.err, 1⟩
      999990 (by decide) (by decide) (by decide),
   circuit_breaker_trip_skip_probe.2.2 cfgFailing lbTool8 1000050 ⟨.err, 1⟩
      999990 (by decide) (by decide) (by decide)⟩

/-- The urgent phase preserves the number of registered tools. -/
theorem urgentPhase_cfgs_length (b : Nat → CallBehavior) :
    ∀ (idxs : List Nat) (cfgs : List SearchToolConfig) (lb : BreakTable) (t : ℚ),
      (urgentPhase b idxs cfgs lb t).cfgs.length = cfgs.length := by
  intro idxs
  induction idxs with
  | nil => intro cfgs lb t; rfl
  | cons i rest ih =>
    intro cfgs lb t
    simp only [urgentPhase]
    rw [ih]
    simp

/-- The urgent phase only writes the configs at the positions it visits. -/
theorem urgentPhase_getD_of_not_mem (b : Nat → CallBehavior) :
    ∀ (idxs : List Nat) (cfgs : List SearchToolConfig) (lb : BreakTable)
      (t : ℚ) (j : Nat), j ∉ idxs →
      (urgentPhase b idxs cfgs lb t).cfgs.getD j default = cfgs.getD j default := by
  intro idxs
  induction idxs with
  | nil => intro cfgs lb t j _; rfl
  | cons i rest ih =>
    intro cfgs lb t j hj
    have hji : i ≠ j := fun h => hj (h ▸ List.mem_cons_self i rest)
    have hjr : j ∉ rest := fun h => hj (List.mem_cons_of_mem i h)
    simp only [urgentPhase]
    rw [ih _ _ _ _ hjr, getD_set_ne _ _ _ _ hji]

/-- A deferred phase over no tasks performs no state change and
contributes nothing, whatever the completion order. -/
theorem deferredPhase_nil (b : Nat → CallBehavior)
    (cfgs : List SearchToolConfig) (lb : BreakTable) (t : ℚ)
    (co : List Nat) :
    deferredPhase b [] cfgs lb t co = ⟨[], [], cfgs, lb⟩ := by
  unfold deferredPhase
  have h : ∀ (co : List Nat) (acc : List SearchToolConfig × BreakTable),
      co.foldl
        (fun (acc : List SearchToolConfig × BreakTable) pos =>
          match (([] : List Nat).map (runTask b cfgs lb t)).get? pos with
          | none => acc
          | some tk =>
            (acc.1.set tk.idx tk.config, applyBreakWrite acc.2 tk.break_write))
        acc = acc := by
    intro co
    induction co with
    | nil => intro acc; rfl
    | cons p rest ih => intro acc; simp only [List.map_nil, List.foldl_cons, List.get?] at ih ⊢; exact ih acc
  simp [h]

/-- A priority with numeric value at least 2 (MEDIUM, LOW, FALLBACK) is
not urgent. -/
theorem isUrgent_eq_false_of_two_le {p : SearchPriority} (h : 2 ≤ p.value) :
    isUrgent p = false := by
  cases p <;> simp_all [SearchPriority.value, isUrgent]

/-- A position holding a MEDIUM/LOW/FALLBACK config is not among the
urgent positions. -/
theorem not_mem_urgentIdx {cfgs : List SearchToolConfig} {j : Nat}
    (h : 2 ≤ ((cfgs.getD j default).priority).value) : j ∉ urgentIdx cfgs := by
  intro hc
  have hmem := (List.mem_filter.mp hc).2
  rw [isUrgent_eq_false_of_two_le h] at hmem
  exact Bool.false_ne_true hmem

/-- C1: if a CRITICAL-tier call succeeded during the sequential urgent
phase and the accumulated result count after that phase is at least 5,
then the deferred tiers are skipped entirely: every MEDIUM-, LOW- or
FALLBACK-tier tool is never invoked during this
`execute_prioritized_search` call — its call count is unchanged (it stays
0 for fresh tools). -/
theorem early_exit_skips_deferred_tiers (cfgs : List SearchToolConfig)
    (lb : BreakTable) (t : ℚ) (b : Nat → CallBehavior) (co : List Nat)
    (j : Nat)
    (hcrit : (execute_prioritized_search cfgs lb t b co).criticalSucceeded = true)
    (hlen : 5 ≤ (execute_prioritized_search cfgs lb t b co).urgentResults.length)
    (hj : 2 ≤ ((cfgs.getD j default).priority).value) :
    ((execute_prioritized_search cfgs lb t b co).cfgs.getD j default).request_count
      = (cfgs.getD j default).request_count := by
  by_cases hemp : cfgs.isEmpty
  · simp only [execute_prioritized_search, if_pos hemp]
  · simp only [execute_prioritized_search, if_neg hemp] at hcrit hlen ⊢
    rw [hcrit]
    have hexit : (true && decide
        (5 ≤ (urgentPhase b (urgentIdx cfgs) cfgs lb t).results.length)) = true := by
      simpa using hlen
    rw [hexit]
    simp only [if_true]
    rw [deferredPhase_nil]
    exact congrArg SearchToolConfig.request_count
      (urgentPhase_getD_of_not_mem b _ cfgs lb t j (not_mem_urgentIdx hj))

/-- C1 witness: with a CRITICAL tool returning five items and MEDIUM/LOW
tools registered, the MEDIUM and LOW tools keep call count 0. -/
theorem early_exit_skips_deferred_tiers_witness :
    ((execute_prioritized_search [cfgCrit, cfgMed, cfgLow] lbEmpty 0 bCritFive
        [0, 1]).criticalSucceeded = true) ∧
    (5 ≤ (execute_prioritized_search [cfgCrit, cfgMed, cfgLow] lbEmpty 0
        bCritFive [0, 1]).urgentResults.length) ∧
    ((execute_prioritized_search [cfgCrit, cfgMed, cfgLow] lbEmpty 0 bCritFive
        [0, 1]).cfgs.getD 1 default).request_count
      = ([cfgCrit, cfgMed, cfgLow].getD 1 default).request_count :=
  ⟨by decide, by decide,
   early_exit_skips_deferred_tiers [cfgCrit, cfgMed, cfgLow] lbEmpty 0 bCritFive
     [0, 1] 1 (by decide) (by decide) (by decide)⟩

/-- C3 counterexample: two deferred-tier tools — `cfgMed` (task 0,
submitted first) and `cfgLow` (task 1) — run concurrently, with
completion order `[1, 0]`: the LOW tool finishes *first*.  The pre-dedup
merged list nonetheless lists the MEDIUM tool's item before the LOW
tool's item, because `asyncio.gather` returns per-task results in
task-creation order and the source concatenates them in that order; the
claimed "whichever finishes first contributes first" ordering
(`[item "ul" "low", item "um" "med"]`) does not occur. -/
theorem merge_not_in_completion_order :
    (execute_prioritized_search [cfgMed, cfgLow] lbEmpty 0 bTwoDeferred
        [1, 0]).allResults = [item "um" "med", item "ul" "low"] ∧
    ([item "um" "med", item "ul" "low"] ≠
      [item "ul" "low", item "um" "med"]) := by
  constructor
  · decide
  · decide

/-- C3 amended: within one `execute_prioritized_search` call the pre-dedup
merged list (and hence the deduplicated results and the sources list)
concatenates successful adapters' items in the fixed priority-sorted
task-submission order; it is entirely independent of the order in which
concurrently executed deferred-tier adapters complete. -/
theorem merge_order_independent_of_completion (cfgs : List SearchToolConfig)
    (lb : BreakTable) (t : ℚ) (b : Nat → CallBehavior) (co co' : List Nat) :
    (execute_prioritized_search cfgs lb t b co).allResults =
      (execute_prioritized_search cfgs lb t b co').allResults ∧
    (execute_prioritized_search cfgs lb t b co).results =
      (execute_prioritized_search cfgs lb t b co').results ∧
    (execute_prioritized_search cfgs lb t b co).sources =
      (execute_prioritized_search cfgs lb t b co').sources := by
  unfold execute_prioritized_search
  split <;> exact ⟨rfl, rfl, rfl⟩

/-- An enabled tool with success rate above the threshold is not
circuit-broken. -/
theorem is_circuit_broken_eq_false_of_rate (cfg : SearchToolConfig)
    (lb : BreakTable) (now : ℚ)
    (h : circuit_breaker_threshold < cfg.success_rate) :
    is_circuit_broken cfg lb now = false := by
  unfold is_circuit_broken
  rw [if_pos h]

/-- An enabled, healthy tool is invoked: its call is attempted and the
statistics reflect exactly the call outcome. -/
theorem invoked_call_shape (cfg : SearchToolConfig) (lb : BreakTable)
    (now : ℚ) (beh : CallBehavior) (hen : cfg.enabled = true)
    (hrate : circuit_breaker_threshold < cfg.success_rate) :
    (execute_search_with_timeout cfg lb now beh).config =
      update_stats cfg beh.elapsed
        (execute_search_with_timeout cfg lb now beh).success := by
  unfold execute_search_with_timeout
  rw [hen, is_circuit_broken_eq_false_of_rate cfg lb now hrate]
  obtain ⟨o, e⟩ := beh
  cases o <;> simp

/-- C7: an adapter whose call raises or times out contributes an empty
result set with the failure flag, and its statistics are updated with a
failure outcome (`update_stats(elapsed, False)`: call count incremented,
`last_success := False`).  The embedding is a total function, so no
exception propagates to the caller.  Moreover the sequential batch
carries on past failures: in the urgent phase, *every* listed enabled,
healthy adapter has its call count incremented — whatever the outcomes of
the other adapters in the batch. -/
theorem adapter_failure_is_isolated :
    (∀ (cfg : SearchToolConfig) (lb : BreakTable) (now : ℚ)
      (beh : CallBehavior),
      cfg.enabled = true →
      circuit_breaker_threshold < cfg.success_rate →
      (beh.outcome = .err ∨ beh.outcome = .timeout) →
      (execute_search_with_timeout cfg lb now beh).results = [] ∧
      (execute_search_with_timeout cfg lb now beh).success = false ∧
      (execute_search_with_timeout cfg lb now beh).config =
        update_stats cfg beh.elapsed false) ∧
    (∀ (b : Nat → CallBehavior) (idxs : List Nat)
      (cfgs : List SearchToolConfig) (lb : BreakTable) (t : ℚ),
      idxs.Nodup →
      (∀ j ∈ idxs, j < cfgs.length ∧ (cfgs.getD j default).enabled = true ∧
        circuit_breaker_threshold < (cfgs.getD j default).success_rate) →
      ∀ j ∈ idxs,
        ((urgentPhase b idxs cfgs lb t).cfgs.getD j default).request_count =
          (cfgs.getD j default).request_count + 1) := by
  constructor
  · intro cfg lb now beh hen hrate hfail
    unfold execute_search_with_timeout
    rw [hen, is_circuit_broken_eq_false_of_rate cfg lb now hrate]
    obtain ⟨o, e⟩ := beh
    rcases hfail with h | h <;> subst h <;> simp
  · intro b idxs
    induction idxs with
    | nil => intro cfgs lb t _ _ j hj; exact absurd hj (List.not_mem_nil j)
    | cons i rest ih =>
      intro cfgs lb t hnd hall j hj
      have hi := hall i (List.mem_cons_self i rest)
      have hir : i ∉ rest := (List.nodup_cons.mp hnd).1
      have hndr : rest.Nodup := (List.nodup_cons.mp hnd).2
      have hcfg : (execute_search_with_timeout (cfgs.getD i default) lb t
          (b (cfgs.getD i default).toolId)).config.request_count =
          (cfgs.getD i default).request_count + 1 := by
        rw [invoked_call_shape _ _ _ _ hi.2.1 hi.2.2]
        rfl
      simp only [urgentPhase]
      rcases List.mem_cons.mp hj with hji | hjr
      · subst hji
        rw [urgentPhase_getD_of_not_mem b rest _ _ _ j hir,
          getD_set_self _ _ _ hi.1]
        exact hcfg
      · have hjne : i ≠ j := fun h => hir (h ▸ hjr)
        set c := (execute_search_with_timeout (cfgs.getD i default) lb t
          (b (cfgs.getD i default).toolId)).config with hc
        have hall2 : ∀ k ∈ rest,
            k < (cfgs.set i c).length ∧
            ((cfgs.set i c).getD k default).enabled = true ∧
            circuit_breaker_threshold <
              ((cfgs.set i c).getD k default).success_rate := by
          intro k hk
          have hkne : i ≠ k := fun h => hir (h ▸ hk)
          rw [getD_set_ne _ _ _ _ hkne, List.length_set]
          exact hall k (List.mem_cons_of_mem i hk)
        rw [ih _ _ _ hndr hall2 j hjr, getD_set_ne _ _ _ _ hjne]

/-- C7 witness: in a two-tool urgent batch where every call raises, the
failing first tool's call returns no results with failure statistics, and
the second tool is still executed (its call count increments). -/
theorem adapter_failure_is_isolated_witness :
    ((execute_search_with_timeout cfgHigh lbEmpty 0 ⟨.err, 1⟩).results = [] ∧
     (execute_search_with_timeout cfgHigh lbEmpty 0 ⟨.err, 1⟩).success = false ∧
     (execute_search_with_timeout cfgHigh lbEmpty 0 ⟨.err, 1⟩).config =
       update_stats cfgHigh 1 false) ∧
    ((urgentPhase bErr [0, 1] [cfgHigh, cfgCrit] lbEmpty 0).cfgs.getD 1
        default).request_count =
      ([cfgHigh, cfgCrit].getD 1 default).request_count + 1 :=
  ⟨adapter_failure_is_isolated.1 cfgHigh lbEmpty 0 ⟨.err, 1⟩ (by decide)
      (by decide) (Or.inl rfl),
   adapter_failure_is_isolated.2 bErr [0, 1] [cfgHigh, cfgCrit] lbEmpty 0
      (by decide) (by decide) 1 (by decide)⟩

/-- C9 counterexample: a single HIGH tool whose call succeeds with an
*empty* result list still has its name appended to `successful_tools`:
the returned `sources` list names it although it contributed no result
item, refuting "appears if and only if its call returned at least one
item". -/
theorem sources_lists_tool_with_zero_items :
    (execute_prioritized_search [cfgHigh] lbEmpty 0 bEmptyOk []).sources =
      ["SerperSearchTool"] ∧
    (execute_prioritized_search [cfgHigh] lbEmpty 0 bEmptyOk []).results = [] := by
  constructor
  · decide
  · decide

/-- Stable insertion permutes: the inserted element joins the list. -/
theorem insertByKey_perm (key : Nat → Nat) :
    ∀ (acc : List Nat) (i : Nat), (insertByKey key acc i).Perm (i :: acc) := by
  intro acc
  induction acc with
  | nil => intro i; exact List.Perm.refl _
  | cons j rest ih =>
    intro i
    simp only [insertByKey]
    split
    · exact ((ih i).cons j).trans (List.Perm.swap i j rest)
    · exact List.Perm.refl _

/-- The sorted position list is a permutation of all positions. -/
theorem sortIdx_perm (cfgs : List SearchToolConfig) :
    (sortIdx cfgs).Perm (List.range cfgs.length) := by
  unfold sortIdx
  suffices h : ∀ (l acc : List Nat),
      (l.foldl (insertByKey fun i => (cfgs.getD i default).priority.value)
        acc).Perm (acc ++ l) by
    simpa using h (List.range cfgs.length) []
  intro l
  induction l with
  | nil => intro acc; simp
  | cons i rest ih =>
    intro acc
    simp only [List.foldl_cons]
    exact (ih _).trans
      (((insertByKey_perm _ acc i).append_right rest).trans List.perm_middle.symm)

/-- Every sorted position is a valid index. -/
theorem mem_sortIdx_lt {cfgs : List SearchToolConfig} {j : Nat}
    (h : j ∈ sortIdx cfgs) : j < cfgs.length :=
  List.mem_range.mp ((sortIdx_perm cfgs).mem_iff.mp h)

/-- The sorted position list has no duplicates. -/
theorem sortIdx_nodup (cfgs : List SearchToolConfig) : (sortIdx cfgs).Nodup :=
  (sortIdx_perm cfgs).nodup_iff.mpr (List.nodup_range _)

/-- A deferred position is never an urgent position. -/
theorem not_mem_urgentIdx_of_mem_deferIdx {cfgs : List SearchToolConfig}
    {j : Nat} (h : j ∈ deferIdx cfgs) : j ∉ urgentIdx cfgs := by
  intro hc
  have h1 := (List.mem_filter.mp h).2
  have h2 := (List.mem_filter.mp hc).2
  rw [h2] at h1
  exact Bool.false_ne_true h1

/-- An enabled, healthy tool's call succeeds exactly when the adapter
returns normally. -/
theorem invoked_call_success (cfg : SearchToolConfig) (lb : BreakTable)
    (now : ℚ) (beh : CallBehavior) (hen : cfg.enabled = true)
    (hrate : circuit_breaker_threshold < cfg.success_rate) :
    (execute_search_with_timeout cfg lb now beh).success =
      outcomeOk beh.outcome := by
  unfold execute_search_with_timeout
  rw [hen, is_circuit_broken_eq_false_of_rate cfg lb now hrate]
  obtain ⟨o, e⟩ := beh
  cases o <;> simp [outcomeOk]

/-- The urgent phase appends exactly the names of the listed tools whose
calls return normally, in list order. -/
theorem urgentPhase_tools (b : Nat → CallBehavior) :
    ∀ (idxs : List Nat) (cfgs : List SearchToolConfig) (lb : BreakTable)
      (t : ℚ), idxs.Nodup →
      (∀ j ∈ idxs, j < cfgs.length ∧ (cfgs.getD j default).enabled = true ∧
        circuit_breaker_threshold < (cfgs.getD j default).success_rate) →
      (urgentPhase b idxs cfgs lb t).tools =
        (idxs.filter (callSucceeded cfgs b)).map (nameAt cfgs) := by
  intro idxs
  induction idxs with
  | nil => intro cfgs lb t _ _; rfl
  | cons i rest ih =>
    intro cfgs lb t hnd hall
    have hi := hall i (List.mem_cons_self i rest)
    have hir : i ∉ rest := (List.nodup_cons.mp hnd).1
    have hndr : rest.Nodup := (List.nodup_cons.mp hnd).2
    simp only [urgentPhase]
    set c := execute_search_with_timeout (cfgs.getD i default) lb t
      (b (cfgs.getD i default).toolId) with hc
    have hall2 : ∀ k ∈ rest,
        k < (cfgs.set i c.config).length ∧
        ((cfgs.set i c.config).getD k default).enabled = true ∧
        circuit_breaker_threshold <
          ((cfgs.set i c.config).getD k default).success_rate := by
      intro k hk
      have hkne : i ≠ k := fun h => hir (h ▸ hk)
      rw [getD_set_ne _ _ _ _ hkne, List.length_set]
      exact hall k (List.mem_cons_of_mem i hk)
    rw [ih _ _ _ hndr hall2]
    have hfc : rest.filter (callSucceeded (cfgs.set i c.config) b) =
        rest.filter (callSucceeded cfgs b) := by
      refine List.filter_congr fun k hk => ?_
      have hkne : i ≠ k := fun h => hir (h ▸ hk)
      unfold callSucceeded
      rw [getD_set_ne _ _ _ _ hkne]
    have hmc : (rest.filter (callSucceeded cfgs b)).map
        (nameAt (cfgs.set i c.config)) =
        (rest.filter (callSucceeded cfgs b)).map (nameAt cfgs) := by
      refine List.map_congr_left fun k hk => ?_
      have hkr : k ∈ rest := List.mem_of_mem_filter hk
      have hkne : i ≠ k := fun h => hir (h ▸ hkr)
      unfold nameAt
      rw [getD_set_ne _ _ _ _ hkne]
    rw [hfc, hmc]
    have hs : c.success = callSucceeded cfgs b i :=
      invoked_call_success _ _ _ _ hi.2.1 hi.2.2
    rw [List.filter_cons]
    cases hcs : callSucceeded cfgs b i
    · rw [hs, hcs]
      simp [hcs]
    · rw [hs, hcs]
      simp only [if_true, List.map_cons, hcs]
      rfl

/-- The deferred phase contributes exactly the names of the listed tools
whose calls return normally, in task-creation order, independent of the
completion order. -/
theorem deferredPhase_tools (b : Nat → CallBehavior)
    (cfgs : List SearchToolConfig) (lb : BreakTable) (t : ℚ) (co : List Nat) :
    ∀ (idxs : List Nat),
      (∀ j ∈ idxs, (cfgs.getD j default).enabled = true ∧
        circuit_breaker_threshold < (cfgs.getD j default).success_rate) →
      (deferredPhase b idxs cfgs lb t co).tools =
        (idxs.filter (callSucceeded cfgs b)).map (nameAt cfgs) := by
  have aux : ∀ (idxs : List Nat),
      (∀ j ∈ idxs, (cfgs.getD j default).enabled = true ∧
        circuit_breaker_threshold < (cfgs.getD j default).success_rate) →
      (idxs.map (runTask b cfgs lb t)).foldr
          (fun tk acc => (if tk.success then [tk.name] else []) ++ acc) [] =
        (idxs.filter (callSucceeded cfgs b)).map (nameAt cfgs) := by
    intro idxs
    induction idxs with
    | nil => intro _; rfl
    | cons i rest ih =>
      intro hall
      have hi := hall i (List.mem_cons_self i rest)
      simp only [List.map_cons, List.foldr_cons]
      rw [ih fun k hk => hall k (List.mem_cons_of_mem i hk)]
      have hs : (runTask b cfgs lb t i).success = callSucceeded cfgs b i := by
        unfold runTask
        exact invoked_call_success _ _ _ _ hi.1 hi.2
      have hn : (runTask b cfgs lb t i).name = nameAt cfgs i := rfl
      rw [List.filter_cons]
      cases hcs : callSucceeded cfgs b i
      · rw [hs, hcs]; simp [hcs]
      · rw [hs, hcs]
        simp only [if_true, List.map_cons, hcs]
        rw [hn]
        rfl
  intro idxs hall
  exact aux idxs hall

/-- C9 amended: when every registered tool is enabled and healthy, the
returned `sources` list is exactly the names of the tools whose calls
were made and returned normally (in priority-sorted submission order,
urgent tier first, the deferred tier omitted when the early exit fired) —
regardless of whether those calls returned any items.  A tool appears
when its call *succeeded*, not when it contributed at least one item. -/
theorem sources_are_successful_call_names (cfgs : List SearchToolConfig)
    (lb : BreakTable) (t : ℚ) (b : Nat → CallBehavior) (co : List Nat)
    (hall : ∀ i, i < cfgs.length → (cfgs.getD i default).enabled = true ∧
      circuit_breaker_threshold < (cfgs.getD i default).success_rate) :
    (execute_prioritized_search cfgs lb t b co).sources =
      (((if (execute_prioritized_search cfgs lb t b co).earlyExit then
          urgentIdx cfgs
        else urgentIdx cfgs ++ deferIdx cfgs)).filter
            (callSucceeded cfgs b)).map (nameAt cfgs) := by
  by_cases hemp : cfgs.isEmpty
  · have hnil : cfgs = [] := List.isEmpty_iff.mp hemp
    subst hnil
    rfl
  · simp only [execute_prioritized_search, if_neg hemp]
    have hndU : (urgentIdx cfgs).Nodup := (sortIdx_nodup cfgs).filter _
    have hallU : ∀ j ∈ urgentIdx cfgs, j < cfgs.length ∧
        (cfgs.getD j default).enabled = true ∧
        circuit_breaker_threshold < (cfgs.getD j default).success_rate := by
      intro j hj
      have hlt := mem_sortIdx_lt (List.mem_filter.mp hj).1
      exact ⟨hlt, hall j hlt⟩
    rw [urgentPhase_tools b _ cfgs lb t hndU hallU]
    cases hcond : ((urgentPhase b (urgentIdx cfgs) cfgs lb t).critical &&
        decide (5 ≤ (urgentPhase b (urgentIdx cfgs) cfgs lb t).results.length))
    · simp only [Bool.false_eq_true, if_false]
      have hallD : ∀ j ∈ deferIdx cfgs,
          (((urgentPhase b (urgentIdx cfgs) cfgs lb t).cfgs).getD j
            default).enabled = true ∧
          circuit_breaker_threshold <
            (((urgentPhase b (urgentIdx cfgs) cfgs lb t).cfgs).getD j
              default).success_rate := by
        intro j hj
        rw [urgentPhase_getD_of_not_mem b _ cfgs lb t j
          (not_mem_urgentIdx_of_mem_deferIdx hj)]
        exact hall j (mem_sortIdx_lt (List.mem_filter.mp hj).1)
      rw [deferredPhase_tools b _ _ _ co (deferIdx cfgs) hallD]
      have hfc : (deferIdx cfgs).filter
          (callSucceeded (urgentPhase b (urgentIdx cfgs) cfgs lb t).cfgs b) =
          (deferIdx cfgs).filter (callSucceeded cfgs b) := by
        refine List.filter_congr fun k hk => ?_
        unfold callSucceeded
        rw [urgentPhase_getD_of_not_mem b _ cfgs lb t k
          (not_mem_urgentIdx_of_mem_deferIdx hk)]
      have hmc : ((deferIdx cfgs).filter (callSucceeded cfgs b)).map
          (nameAt (urgentPhase b (urgentIdx cfgs) cfgs lb t).cfgs) =
          ((deferIdx cfgs).filter (callSucceeded cfgs b)).map (nameAt cfgs) := by
        refine List.map_congr_left fun k hk => ?_
        unfold nameAt
        rw [urgentPhase_getD_of_not_mem b _ cfgs lb t k
          (not_mem_urgentIdx_of_mem_deferIdx (List.mem_of_mem_filter hk))]
      rw [hfc, hmc, List.filter_append, List.map_append]
    · simp only [if_true]
      rw [deferredPhase_nil]
      simp

/-- C9 amended witness: a batch of one HIGH tool (succeeding with zero
items) and one MEDIUM tool (raising) yields exactly the HIGH tool's name
in `sources`. -/
theorem sources_are_successful_call_names_witness :
    (∀ i, i < ([cfgHigh, cfgMed] : List SearchToolConfig).length →
      (([cfgHigh, cfgMed].getD i default).enabled = true ∧
        circuit_breaker_threshold <
          ([cfgHigh, cfgMed].getD i default).success_rate)) ∧
    (execute_prioritized_search [cfgHigh, cfgMed] lbEmpty 0
        (fun id => if id = 2 then ⟨.ok [], 1⟩ else ⟨.err, 1⟩) []).sources =
      (((if (execute_prioritized_search [cfgHigh, cfgMed] lbEmpty 0
            (fun id => if id = 2 then ⟨.ok [], 1⟩ else ⟨.err, 1⟩) []).earlyExit
          then urgentIdx [cfgHigh, cfgMed]
          else urgentIdx [cfgHigh, cfgMed] ++ deferIdx [cfgHigh, cfgMed])).filter
            (callSucceeded [cfgHigh, cfgMed]
              (fun id => if id = 2 then ⟨.ok [], 1⟩ else ⟨.err, 1⟩))).map
        (nameAt [cfgHigh, cfgMed]) :=
  ⟨by decide,
   sources_are_successful_call_names [cfgHigh, cfgMed] lbEmpty 0
     (fun id => if id = 2 then ⟨.ok [], 1⟩ else ⟨.err, 1⟩) [] (by decide)⟩

/-- Choosing the next query never changes the steps already taken. -/
theorem nextQueryChoice_steps (query : String) (a : AnalysisResult)
    (p : ResearchPlan) : ((nextQueryChoice query a p).2).steps = p.steps := by
  unfold nextQueryChoice
  split
  · split <;> rfl
  · rfl

/-- Appending a step grows the step list by one. -/
theorem add_step_len (p : ResearchPlan) (s : ResearchStep) :
    (add_step p s).steps.length = p.steps.length + 1 := by
  simp [add_step]

/-- The first-step construction produces exactly one new step. -/
theorem initialPlanStep_len (o : EngineOracles) (query : String)
    (p : ResearchPlan) (qis : List QueryInfo) :
    (initialPlanStep o query p qis).steps.length = p.steps.length + 1 := by
  cases qis <;> simp [initialPlanStep, add_step]

/-- With an analysis that always signals sufficiency, the loop exits at
once without adding a step. -/
theorem researchLoop_sufficient {o : EngineOracles} {query : String}
    (h : ∀ n, ∃ a, o.analyze n = Except.ok a ∧ a.information_sufficient = true) :
    ∀ (fuel : Nat) (p : ResearchPlan), researchLoop o query fuel p = .ok p := by
  intro fuel p
  cases fuel with
  | zero => rfl
  | succ f =>
    obtain ⟨a, ha, hs⟩ := h p.steps.length
    simp [researchLoop, ha, hs]

/-- With an analysis that never signals sufficiency, the loop spends its
whole fuel, adding one step per pass. -/
theorem researchLoop_never_sufficient {o : EngineOracles} {query : String}
    (h : ∀ n, ∃ a, o.analyze n = Except.ok a ∧
      a.information_sufficient = false) :
    ∀ (fuel : Nat) (p : ResearchPlan), ∃ p2,
      researchLoop o query fuel p = .ok p2 ∧
      p2.steps.length = p.steps.length + fuel := by
  intro fuel
  induction fuel with
  | zero => intro p; exact ⟨p, rfl, rfl⟩
  | succ f ih =>
    intro p
    obtain ⟨a, ha, hs⟩ := h p.steps.length
    obtain ⟨p2, hp2, hlen⟩ := ih
      (add_step (nextQueryChoice query a p).2
        (mkStep (nextQueryChoice query a p).1.query
          (nextQueryChoice query a p).1.reasoning
          (o.search (nextQueryChoice query a p).1.query)))
    refine ⟨p2, ?_, ?_⟩
    · simp only [researchLoop, ha, hs]
      simpa using hp2
    · rw [hlen, add_step_len, nextQueryChoice_steps]
      omega

/-- A loop phase can only return `.ok` with a completed plan. -/
theorem loopPhase_ok_status (o : EngineOracles) (maxIter : Nat)
    (query : String) (p : ResearchPlan) (pr : ResearchPlan × String)
    (h : loopPhase o maxIter query p = .ok pr) : pr.1.status = "completed" := by
  unfold loopPhase at h
  cases hr : researchLoop o query (maxIter - p.steps.length) p <;> rw [hr] at h
  · exact absurd h (by simp)
  · cases hsy : o.synthesize <;> rw [hsy] at h
    · exact absurd h (by simp)
    · cases h
      rfl

/-- The whole `try` block can only return `.ok` with a completed plan. -/
theorem researchBody_ok_status (o : EngineOracles) (maxIter : Nat)
    (query : String) (p : ResearchPlan) (pr : ResearchPlan × String)
    (h : researchBody o maxIter query p = .ok pr) : pr.1.status = "completed" := by
  unfold researchBody at h
  split at h
  · cases hpi : o.planInitial <;> rw [hpi] at h
    · exact absurd h (by simp)
    · exact loopPhase_ok_status _ _ _ _ _ h
  · exact loopPhase_ok_status _ _ _ _ _ h

/-- C6 counterexample: `completedPlan` has the terminal status
`"completed"`, yet calling `execute_research` again with its plan id (and
a synthesis LLM call that raises) changes its status: the stored plan and
the response both end at `"error"`.  `execute_research` unconditionally
resets a resumed plan to `"in_progress"` and re-runs it, so `"completed"`
is not terminal. -/
theorem completed_plan_can_become_error :
    completedPlan.status = "completed" ∧
    (execute_research 5 oraclesSynthRaises [(7, completedPlan)] "q"
        (some 7) 99).2.status = "error" ∧
    (execute_research 5 oraclesSynthRaises [(7, completedPlan)] "q"
        (some 7) 99).1.lookup 7 =
      some { completedPlan with status := "error" } := by
  refine ⟨rfl, rfl, ?_⟩
  decide

/-- C6 amended: after any `execute_research` call the plan's reported
status is `"completed"` or `"error"`; but neither status is terminal —
a later `execute_research` call with the same plan id resets the plan to
`"in_progress"` and re-runs it, and can move it to the other terminal
status (see the counterexample). -/
theorem execute_research_final_status (maxIter : Nat) (o : EngineOracles)
    (plans : List (Nat × ResearchPlan)) (query : String)
    (planId : Option Nat) (newId : Nat) :
    (execute_research maxIter o plans query planId newId).2.status =
        "completed" ∨
    (execute_research maxIter o plans query planId newId).2.status =
        "error" := by
  have core : ∀ (k : Nat) (p0 : ResearchPlan),
      (execute_research_on maxIter o plans k p0 query).2.status = "completed" ∨
      (execute_research_on maxIter o plans k p0 query).2.status = "error" := by
    intro k p0
    unfold execute_research_on
    cases hb : researchBody o maxIter query { p0 with status := "in_progress" }
    · right; rfl
    · next pr =>
      left
      obtain ⟨p1, syn⟩ := pr
      exact researchBody_ok_status _ _ _ _ _ hb
  cases planId with
  | none => exact core newId (freshPlan newId query)
  | some pid =>
    cases hl : plans.lookup pid with
    | none =>
      simp only [execute_research, hl]
      exact core newId (freshPlan newId query)
    | some p =>
      simp only [execute_research, hl]
      exact core pid p

/-- A plan with no steps and a successful planning call reduces to the
loop phase over the one-step plan. -/
theorem researchBody_of_planInitial_ok (o : EngineOracles) (maxIter : Nat)
    (query : String) (p : ResearchPlan) (qis : List QueryInfo)
    (hp : p.steps.isEmpty = true) (hpi : o.planInitial = Except.ok qis) :
    researchBody o maxIter query p =
      loopPhase o maxIter query (initialPlanStep o query p qis) := by
  unfold researchBody
  rw [if_pos hp, hpi]

/-- A loop that returns normally followed by a successful synthesis call
completes the plan. -/
theorem loopPhase_of_ok (o : EngineOracles) (maxIter : Nat) (query : String)
    (p p2 : ResearchPlan) (syn : String)
    (hl : researchLoop o query (maxIter - p.steps.length) p = Except.ok p2)
    (hs : o.synthesize = Except.ok syn) :
    loopPhase o maxIter query p =
      .ok ({ p2 with synthesis := syn, status := "completed" }, syn) := by
  unfold loopPhase
  rw [hl, hs]

/-- C5: for a fresh research plan (no `plan_id`), with well-behaved
planning and synthesis calls: if the analysis signals
`information_sufficient` whenever consulted, `execute_research` completes
the plan with exactly 1 step; if the analysis never signals sufficiency,
it completes the plan with exactly `max_iterations` steps (for any
positive `max_iterations`), never more. -/
theorem execute_research_iteration_counts (maxIter : Nat) (o : EngineOracles)
    (plans : List (Nat × ResearchPlan)) (query : String) (newId : Nat)
    (hpi : ∃ qis, o.planInitial = Except.ok qis)
    (hsy : ∃ syn, o.synthesize = Except.ok syn) :
    ((∀ n, ∃ a, o.analyze n = Except.ok a ∧ a.information_sufficient = true) →
      (execute_research maxIter o plans query none
          newId).2.iterations_completed = 1 ∧
      (execute_research maxIter o plans query none newId).2.status =
        "completed") ∧
    ((∀ n, ∃ a, o.analyze n = Except.ok a ∧ a.information_sufficient = false) →
      1 ≤ maxIter →
      (execute_research maxIter o plans query none
          newId).2.iterations_completed = maxIter ∧
      (execute_research maxIter o plans query none newId).2.status =
        "completed") := by
  obtain ⟨qis, hpi⟩ := hpi
  obtain ⟨syn, hsy⟩ := hsy
  have hred : execute_research maxIter o plans query none newId =
      execute_research_on maxIter o plans newId (freshPlan newId query)
        query := rfl
  have hbody : ∀ (pr : ResearchPlan × String),
      researchBody o maxIter query
        { freshPlan newId query with status := "in_progress" } = .ok pr →
      (execute_research maxIter o plans query none
          newId).2.iterations_completed = pr.1.steps.length ∧
      (execute_research maxIter o plans query none newId).2.status =
        pr.1.status := by
    intro pr
    obtain ⟨p1, s1⟩ := pr
    intro hb
    rw [hred]
    unfold execute_research_on
    rw [hb]
    exact ⟨rfl, rfl⟩
  constructor
  · intro hA
    have hb : researchBody o maxIter query
        { freshPlan newId query with status := "in_progress" } =
        .ok ({ initialPlanStep o query
                 { freshPlan newId query with status := "in_progress" } qis
               with synthesis := syn, status := "completed" }, syn) := by
      rw [researchBody_of_planInitial_ok o maxIter query
        { freshPlan newId query with status := "in_progress" } qis rfl hpi]
      exact loopPhase_of_ok o maxIter query _ _ syn
        (researchLoop_sufficient hA _ _) hsy
    obtain ⟨h1, h2⟩ := hbody _ hb
    refine ⟨?_, ?_⟩
    · rw [h1]
      show (initialPlanStep o query
        { freshPlan newId query with status := "in_progress" }
        qis).steps.length = 1
      rw [initialPlanStep_len]
      rfl
    · rw [h2]
  · intro hB hmax
    obtain ⟨p2, hp2, hlen⟩ := researchLoop_never_sufficient hB
      (maxIter - (initialPlanStep o query
        { freshPlan newId query with status := "in_progress" }
        qis).steps.length)
      (initialPlanStep o query
        { freshPlan newId query with status := "in_progress" } qis)
    have hb : researchBody o maxIter query
        { freshPlan newId query with status := "in_progress" } =
        .ok ({ p2 with synthesis := syn, status := "completed" }, syn) := by
      rw [researchBody_of_planInitial_ok o maxIter query
        { freshPlan newId query with status := "in_progress" } qis rfl hpi]
      exact loopPhase_of_ok o maxIter query _ _ syn hp2 hsy
    obtain ⟨h1, h2⟩ := hbody _ hb
    have hone : (initialPlanStep o query
        { freshPlan newId query with status := "in_progress" }
        qis).steps.length = 1 := by
      rw [initialPlanStep_len]
      rfl
    refine ⟨?_, ?_⟩
    · rw [h1]
      show p2.steps.length = maxIter
      rw [hlen, hone]
      omega
    · rw [h2]

/-- C5 witness: with the immediately-sufficient stub the fresh plan ends
after exactly 1 step; with the never-sufficient stub it ends at exactly
`max_iterations = 5` steps; both complete. -/
theorem execute_research_iteration_counts_witness :
    ((execute_research 5 oraclesSufficient [] "q" none
        0).2.iterations_completed = 1 ∧
      (execute_research 5 oraclesSufficient [] "q" none 0).2.status =
        "completed") ∧
    ((execute_research 5 oraclesNeverSufficient [] "q" none
        0).2.iterations_completed = 5 ∧
      (execute_research 5 oraclesNeverSufficient [] "q" none 0).2.status =
        "completed") :=
  ⟨(execute_research_iteration_counts 5 oraclesSufficient [] "q" 0
      ⟨[], rfl⟩ ⟨"report", rfl⟩).1 (fun _ => ⟨⟨true, []⟩, rfl, rfl⟩),
   (execute_research_iteration_counts 5 oraclesNeverSufficient [] "q" 0
      ⟨[], rfl⟩ ⟨"report", rfl⟩).2 (fun _ => ⟨⟨false, []⟩, rfl, rfl⟩)
     (by decide)⟩
